import Mathlib

/-!
Shallow embedding of the reservation core of `reservas-inacap`
(`api/models.py`, `api/forms.py`, `api/views.py`).

Conventions of the embedding:
* `datetime` values are modelled as `Int` seconds (the code only compares
  datetimes and takes differences via `total_seconds()`).
* Database tables are Lean lists; primary keys are `Nat`.
* Notification message texts are abstracted into a structured `MessageKind`
  (the code builds Spanish f-strings; only sender/recipient/occasion matter
  to the spec claims).
* The Python string field `end` is written `«end»` (Lean keyword).
-/

namespace Reservas

/-!
Python string primitives. A Python `str` is a sequence of code points, so
each operation is defined by structural recursion on `String.data`
(`List Char`), mirroring the Python semantics directly.
-/

/-- Python `str.strip()` with no argument: drop whitespace from both ends. -/
def pyStrip (s : String) : String :=
  String.mk (((s.data.dropWhile Char.isWhitespace).reverse.dropWhile
    Char.isWhitespace).reverse)

/-- Helper for `pySplit`: accumulate the current field (reversed). -/
def splitCharAux (sep : Char) : List Char → List Char → List (List Char)
  | [], acc => [acc.reverse]
  | c :: cs, acc =>
    if c == sep then acc.reverse :: splitCharAux sep cs []
    else splitCharAux sep cs (c :: acc)

/-- Python `s.split(sep)` for a one-character separator (the code splits on
":" and "|" only). -/
def pySplit (sep : Char) (s : String) : List String :=
  (splitCharAux sep s.data []).map String.mk

/-- Whether the second list is an initial segment of the first (Python
`str.startswith`). -/
def listStartsWith : List Char → List Char → Bool
  | _, [] => true
  | [], _ :: _ => false
  | a :: as, b :: bs => a == b && listStartsWith as bs

/-- Python `str.lower()` (ASCII case suffices for the literals involved). -/
def pyLower (s : String) : String := String.mk (s.data.map Char.toLower)

/-- Decimal digits to a number. -/
def digitsToNat (l : List Char) : Nat := l.foldl (fun n c => n * 10 + (c.toNat - 48)) 0

/-- Python `int(s)` on the digit strings the slot labels are made of
(on anything else Python raises; we return 0, which no claim exercises). -/
def pyInt (s : String) : Nat :=
  if s.data ≠ [] && s.data.all Char.isDigit then digitsToNat s.data else 0

/-- Python `sep.join(parts)`. -/
def joinSep (sep : String) : List String → String
  | [] => ""
  | [x] => x
  | x :: y :: xs => x ++ sep ++ joinSep sep (y :: xs)

/-- Python slicing `s[:n]`. -/
def pyTake (n : Nat) (s : String) : String := String.mk (s.data.take n)

/-- Lexicographic comparison on code points, Python's `<` on strings. -/
def charListLt : List Char → List Char → Bool
  | _, [] => false
  | [], _ :: _ => true
  | a :: as, b :: bs =>
    if a.toNat < b.toNat then true
    else if b.toNat < a.toNat then false
    else charListLt as bs

/-- Python `s < t` on strings. -/
def strLt (s t : String) : Bool := charListLt s.data t.data

/-- Python `s <= t` on strings. -/
def strLe (s t : String) : Bool := charListLt s.data t.data || s == t

/-- Python `s.replace(a, b)` for one-character `a`, `b`. -/
def replaceChar (a b : Char) (s : String) : String :=
  String.mk (s.data.map (fun c => if c == a then b else c))

/-- Reservation.STATUS_CHOICES of `api/models.py`: PEND/APPR/REJ/CANC. -/
inductive Status where
  | PEND
  | APPR
  | REJ
  | CANC
deriving DecidableEq, Repr

/-- The `Reservation` model of `api/models.py` (fields used by the logic). -/
structure Reservation where
  pk : Nat
  userId : Nat
  space : Nat
  start : Int
  «end» : Int
  purpose : String
  attendees_count : Nat
  status : Status
  created_at : Int
  cancel_reason : String
deriving DecidableEq, Repr

/-- `Reservation.overlaps` (models.py lines 60-65): same space, status in
{PENDING, APPROVED}, `start__lt=self.end`, `end__gt=self.start`, excluding
`self.pk`. -/
def Reservation.overlaps (self : Reservation) (db : List Reservation) : List Reservation :=
  db.filter (fun r =>
    decide (r.pk ≠ self.pk ∧ r.space = self.space
      ∧ (r.status = Status.PEND ∨ r.status = Status.APPR)
      ∧ r.start < self.«end» ∧ r.«end» > self.start))

/-- The creation/edit-time conflict query of `ReservationForm.clean`
(forms.py lines 246-257): filter on space, active status and interval
overlap, then exclude the instance pk when editing. -/
def formConflict (db : List Reservation) (space : Nat) (startDt endDt : Int)
    (excludePk : Option Nat) : Bool :=
  let qs := db.filter (fun r =>
    decide (r.space = space ∧ (r.status = Status.PEND ∨ r.status = Status.APPR)
      ∧ r.start < endDt ∧ r.«end» > startDt))
  let qs :=
    match excludePk with
    | some pk => qs.filter (fun (r : Reservation) => decide (r.pk ≠ pk))
    | none => qs
  !qs.isEmpty

/-- `Reservation.can_cancel` (models.py lines 68-84). `window_h` models
`settings.MIN_CANCEL_WINDOW_HOURS` (default 2). -/
def Reservation.can_cancel (self : Reservation) (now : Int) (window_h : Nat) : Bool :=
  if self.status = Status.REJ ∨ self.status = Status.CANC then false
  else if self.start ≤ now then false
  else if self.status = Status.APPR then
    decide (self.start - now ≥ (window_h : Int) * 3600)
  else true

/-- Occasions on which the code creates `Notification` rows; the Spanish
f-string bodies are abstracted to constructors carrying the reservation pk
and the free-text payload they embed. -/
inductive MessageKind where
  | userCanceled (pk : Nat)
  | adminCanceledNotice (pk : Nat)
  | approvedNotice (pk : Nat) (notes : String)
  | rejectedNotice (pk : Nat) (notes : String)
  | prepareSpace (pk : Nat) (notes : String)
  | standDown (pk : Nat) (reason : String)
deriving DecidableEq, Repr

/-- The `Notification` model (user, message). -/
structure Notification where
  userId : Nat
  message : MessageKind
deriving DecidableEq, Repr

/-- `Reservation.cancel_by_user` (models.py lines 86-113): returns the
updated reservation together with the notifications it creates (owner plus
every staff user). Already-CANCELED reservations return unchanged with no
notifications. -/
def Reservation.cancel_by_user (self : Reservation) (reason : String) (staff : List Nat) :
    Reservation × List Notification :=
  if self.status = Status.CANC then (self, [])
  else
    let note := pyStrip reason
    let purpose' :=
      if note ≠ "" then
        if self.purpose ≠ "" then self.purpose ++ " [Cancelada por usuario]"
        else " [Cancelada por usuario]"
      else self.purpose
    let r' := { self with cancel_reason := note, purpose := purpose', status := Status.CANC }
    (r', ⟨self.userId, MessageKind.userCanceled self.pk⟩ ::
      staff.map (fun a => ⟨a, MessageKind.adminCanceledNotice self.pk⟩))

/-- The two values of `Approval.decision` ("APPR"/"REJ"), after the view's
mapping of the submitted "approve"/"reject" buttons. -/
inductive Decision where
  | APPR
  | REJ
deriving DecidableEq, Repr

/-- The `Approval` model (models.py lines 116-121): one-to-one with a
reservation; approver, decision, notes. -/
structure Approval where
  reservation : Nat
  approver : Nat
  decision : Decision
  notes : String
deriving DecidableEq, Repr

/-- The database state the reservation views touch. `staffUsers` are the
`is_staff=True` users; `cleaningUsers` the members of the cleaning group. -/
structure DB where
  reservations : List Reservation
  approvals : List Approval
  notifications : List Notification
  staffUsers : List Nat
  cleaningUsers : List Nat
deriving DecidableEq, Repr

/-- `Approval.objects.update_or_create(reservation=..., defaults=...)`
(views.py lines 341-344): update the row keyed by the reservation if one
exists, otherwise insert a fresh one. -/
def upsertApproval (apps : List Approval) (pk approverId : Nat) (decision : Decision)
    (notes : String) : List Approval :=
  if apps.any (fun a => a.reservation == pk) then
    apps.map (fun a =>
      if a.reservation = pk then
        { a with approver := approverId, decision := decision, notes := notes }
      else a)
  else
    apps ++ [{ reservation := pk, approver := approverId, decision := decision, notes := notes }]

/-- The approval-time conflict query (views.py lines 326-333): another
reservation in the same space with status APPROVED whose interval overlaps. -/
def hasApprovedConflict (rs : List Reservation) (resv : Reservation) : Bool :=
  rs.any (fun o =>
    decide (o.space = resv.space ∧ o.status = Status.APPR ∧ o.pk ≠ resv.pk
      ∧ o.start < resv.«end» ∧ o.«end» > resv.start))

/-- The `approve_or_reject` view (views.py lines 307-384) on a POST whose
decision has already been mapped to APPR/REJ. Returns the new database and
whether the decision was recorded. Form validation (`ApprovalForm.clean`,
forms.py lines 288-296) fails when rejecting with empty (stripped) notes;
approving re-checks conflicts against APPROVED reservations only. -/
def approve_or_reject (db : DB) (pk approverId : Nat) (decision : Decision)
    (rawNotes : String) : DB × Bool :=
  match db.reservations.find? (fun r => r.pk == pk) with
  | none => (db, false)
  | some reservation =>
    let notes := pyStrip rawNotes
    if decision = Decision.REJ ∧ notes = "" then (db, false)
    else if decision = Decision.APPR ∧ hasApprovedConflict db.reservations reservation then
      (db, false)
    else
      let approvals' := upsertApproval db.approvals pk approverId decision notes
      let newStatus := if decision = Decision.APPR then Status.APPR else Status.REJ
      let reservations' := db.reservations.map (fun r =>
        if r.pk = pk then { r with status := newStatus } else r)
      let notifs :=
        if decision = Decision.APPR then
          Notification.mk reservation.userId (MessageKind.approvedNotice pk notes) ::
            db.cleaningUsers.map (fun u => ⟨u, MessageKind.prepareSpace pk notes⟩)
        else
          [⟨reservation.userId, MessageKind.rejectedNotice pk notes⟩]
      ({ db with
          reservations := reservations',
          approvals := approvals',
          notifications := db.notifications ++ notifs }, true)

/-- The `cancel_reservation` view (views.py lines 266-296) on a POST by the
owner: guard with `can_cancel`, strip and truncate the reason to 255
characters, run `cancel_by_user`, then notify the cleaning group. -/
def cancel_reservation (db : DB) (now : Int) (window_h : Nat) (pk userId : Nat)
    (rawReason : String) : DB × Bool :=
  match db.reservations.find? (fun r => r.pk == pk && r.userId == userId) with
  | none => (db, false)
  | some reservation =>
    if reservation.can_cancel now window_h then
      let reason := pyTake 255 (pyStrip rawReason)
      let (r', notifs) := reservation.cancel_by_user reason db.staffUsers
      let cleaning := db.cleaningUsers.map (fun u =>
        Notification.mk u (MessageKind.standDown pk reason))
      ({ db with
          reservations := db.reservations.map (fun x => if x.pk = pk then r' else x),
          notifications := db.notifications ++ notifs ++ cleaning }, true)
    else (db, false)

/-- `_parse_hhmm` (forms.py lines 14-16), as total minutes of the day.
Outside the two-field "HH:MM" shape the Python code raises; we return 0,
which no claim exercises. -/
def slotMinutes (s : String) : Nat :=
  match pySplit ':' s with
  | [h, m] => pyInt h * 60 + pyInt m
  | _ => 0

/-- Zero-padded two-digit rendering, as `strftime` does. -/
def pad2 (n : Nat) : String :=
  if n < 10 then "0" ++ toString n else toString n

/-- `strftime("%H:%M")` on a minutes-of-day count. -/
def fmtHHMM (m : Nat) : String :=
  pad2 (m / 60 % 24) ++ ":" ++ pad2 (m % 60)

/-- The `while cur <= end_dt` loop of `build_day_slots` (forms.py lines
36-42), on minute counts. The fuel argument only bounds the iteration count;
`build_day_slots_min` passes enough fuel for any positive interval (the
Python loop does not terminate on interval 0, which settings never produce). -/
def slotsLoop : Nat → Nat → Nat → Nat → List Nat
  | 0, _, _, _ => []
  | fuel + 1, cur, endM, interval =>
    if cur ≤ endM then cur :: slotsLoop fuel (cur + interval) endM interval else []

/-- `build_day_slots` on minutes: all grid points from `startM` stepping by
`interval` while still `≤ endM`. -/
def build_day_slots_min (interval startM endM : Nat) : List Nat :=
  slotsLoop (endM + 1 - startM) startM endM interval

/-- `build_day_slots` (forms.py lines 18-42): the "HH:MM" labels of the day
grid, built from `SLOT_INTERVAL_MIN`, `SLOT_DAY_START`, `SLOT_DAY_END`. -/
def build_day_slots (interval : Nat) (dayStart dayEnd : String) : List String :=
  (build_day_slots_min interval (slotMinutes dayStart) (slotMinutes dayEnd)).map fmtHHMM

/-- The validation failures `ReservationForm.clean` (forms.py lines 210-259)
can produce, in source order. -/
inductive FormError where
  | invalidSlot
  | endSlotNotAfter
  | endNotAfterStart
  | pastStart
  | conflict
deriving DecidableEq, Repr

/-- `ReservationForm.clean` (forms.py lines 210-259). `grid` is the slot
label list the form was built with, `dateBase` the midnight instant of the
chosen date in seconds. A raised `ValidationError` stops the checks; the
past-start check instead uses `add_error` and falls through to the conflict
query, so both errors can be collected. The form is valid iff the result is
`[]`. -/
def reservationFormClean (grid : List String) (db : List Reservation) (space : Nat)
    (dateBase : Int) (startSlot endSlot : String) (now : Int) (instancePk : Option Nat) :
    List FormError :=
  if ¬ (startSlot ∈ grid ∧ endSlot ∈ grid) then [FormError.invalidSlot]
  else if strLe endSlot startSlot then [FormError.endSlotNotAfter]
  else
    let startDt := dateBase + (slotMinutes startSlot : Int) * 60
    let endDt := dateBase + (slotMinutes endSlot : Int) * 60
    if ¬ startDt < endDt then [FormError.endNotAfterStart]
    else
      let e1 := if startDt < now then [FormError.pastStart] else []
      if formConflict db space startDt endDt instancePk then e1 ++ [FormError.conflict]
      else e1

/-- `ReservationCreateView` (views.py lines 194-240) combined with the form:
the reservation is persisted (status PENDING, start/end from the slots) iff
`clean` produced no error. -/
def reservationCreate (grid : List String) (db : List Reservation) (space : Nat)
    (dateBase : Int) (startSlot endSlot : String) (now : Int) (pk userId : Nat)
    (purpose : String) (attendees : Nat) : Option Reservation :=
  if reservationFormClean grid db space dateBase startSlot endSlot now none = [] then
    some
      { pk := pk, userId := userId, space := space,
        start := dateBase + (slotMinutes startSlot : Int) * 60,
        «end» := dateBase + (slotMinutes endSlot : Int) * 60,
        purpose := purpose, attendees_count := attendees, status := Status.PEND,
        created_at := now, cancel_reason := "" }
  else none

/-- Python's `s.strip(" |")`: drop spaces and pipes from both ends. -/
def stripSpacePipe (s : String) : String :=
  String.mk (((s.data.dropWhile (fun c => c == ' ' || c == '|')).reverse.dropWhile
    (fun c => c == ' ' || c == '|')).reverse)

/-- Python's `part.split(":", 1)[1]`: everything after the first colon
(the callers only use it on strings that contain a colon). -/
def afterFirstColon (s : String) : String :=
  match pySplit ':' s with
  | [] => ""
  | _ :: rest => joinSep ":" rest

/-- `split_purpose` inside `export_reservations_csv` (views.py lines
485-502): split the purpose on "|", route the parts prefixed (case
insensitively) with "recursos solicitados:" / "detalle recursos:" into the
two resource columns, and rejoin the remaining parts as the base purpose. -/
def split_purpose (purposeRaw : String) : String × String × String :=
  if purposeRaw = "" then ("", "", "")
  else
    let step := fun (acc : List String × String × String) (part : String) =>
      let low := pyLower part
      if listStartsWith low.data "recursos solicitados:".data then
        (acc.1, pyStrip (afterFirstColon part), acc.2.2)
      else if listStartsWith low.data "detalle recursos:".data then
        (acc.1, acc.2.1, pyStrip (afterFirstColon part))
      else
        (acc.1 ++ [part], acc.2.1, acc.2.2)
    let res := ((pySplit '|' purposeRaw).map pyStrip).foldl step ([], "", "")
    (stripSpacePipe (joinSep " | " res.1), res.2.1, res.2.2)

/-- The per-row cleanup of the three purpose-derived CSV columns (views.py
lines 506-513): newlines to spaces, then strip. -/
def csvPurposeColumns (purpose : String) : String × String × String :=
  let clean := fun (s : String) =>
    pyStrip (replaceChar '\n' ' ' (replaceChar '\r' ' ' s))
  let res := split_purpose purpose
  (clean res.1, clean res.2.1, clean res.2.2)

/-- At most one `Approval` row per reservation: the invariant the
`OneToOneField(reservation)` of the `Approval` model maintains. -/
def atMostOneApprovalPer (apps : List Approval) : Prop :=
  ∀ k : Nat, ((apps.filter (fun a => a.reservation == k)).length ≤ 1)

/-!
Concrete fixtures used by the witness theorems below.
-/

/-- An APPROVED reservation starting one hour after instant 0. -/
def resApproved1h : Reservation :=
  { pk := 1, userId := 1, space := 1, start := 3600, «end» := 7200, purpose := "",
    attendees_count := 1, status := Status.APPR, created_at := 0, cancel_reason := "" }

/-- The same reservation starting three hours after instant 0. -/
def resApproved3h : Reservation :=
  { resApproved1h with start := 10800, «end» := 14400 }

/-- An already-CANCELED reservation. -/
def resCanceled : Reservation :=
  { pk := 2, userId := 3, space := 1, start := 3600, «end» := 7200, purpose := "Clase",
    attendees_count := 5, status := Status.CANC, created_at := 0, cancel_reason := "x" }

/-- A PENDING reservation with a non-empty purpose. -/
def resPending : Reservation :=
  { pk := 4, userId := 3, space := 1, start := 3600, «end» := 7200, purpose := "Clase",
    attendees_count := 5, status := Status.PEND, created_at := 0, cancel_reason := "" }

/-- A PENDING reservation on space 1 over [100, 200). -/
def rPendW : Reservation :=
  { pk := 1, userId := 2, space := 1, start := 100, «end» := 200, purpose := "",
    attendees_count := 1, status := Status.PEND, created_at := 0, cancel_reason := "" }

/-- An APPROVED reservation on space 1 over [150, 250), overlapping `rPendW`. -/
def rApprW : Reservation :=
  { pk := 2, userId := 3, space := 1, start := 150, «end» := 250, purpose := "",
    attendees_count := 1, status := Status.APPR, created_at := 0, cancel_reason := "" }

/-- A reservation ending exactly when `rPendW` starts (back-to-back). -/
def rBackToBack : Reservation :=
  { pk := 3, userId := 4, space := 1, start := 50, «end» := 100, purpose := "",
    attendees_count := 1, status := Status.APPR, created_at := 0, cancel_reason := "" }

/-- Database in which approving `rPendW` hits an APPROVED conflict. -/
def dbApprConflict : DB :=
  { reservations := [rPendW, rApprW], approvals := [], notifications := [],
    staffUsers := [], cleaningUsers := [] }

/-- Database with a single pending reservation and a prior approval row. -/
def dbRejW : DB :=
  { reservations := [rPendW], approvals := [⟨1, 4, Decision.APPR, "antes"⟩],
    notifications := [], staffUsers := [9], cleaningUsers := [11] }

/-!
Helper lemmas about `upsertApproval` and the slot grid.
-/

/-- The upsert always leaves a row keyed by `pk` carrying the new decision data. -/
theorem upsertApproval_mem_new (apps : List Approval) (pk approverId : Nat)
    (d : Decision) (notes : String) :
    ∃ a ∈ upsertApproval apps pk approverId d notes,
      a.reservation = pk ∧ a.approver = approverId ∧ a.decision = d ∧ a.notes = notes := by
  unfold upsertApproval
  split
  case isTrue hany =>
    rcases List.any_eq_true.mp hany with ⟨a, ha, hbeq⟩
    have hres : a.reservation = pk := by simpa using hbeq
    refine ⟨{ a with approver := approverId, decision := d, notes := notes }, ?_, ?_⟩
    · apply List.mem_map.mpr
      exact ⟨a, ha, by rw [if_pos hres]⟩
    · exact ⟨hres, rfl, rfl, rfl⟩
  case isFalse hany =>
    exact ⟨⟨pk, approverId, d, notes⟩, by simp, rfl, rfl, rfl, rfl⟩

/-- After the upsert, every row keyed by `pk` carries the new decision data. -/
theorem upsertApproval_latest (apps : List Approval) (pk approverId : Nat)
    (d : Decision) (notes : String) :
    ∀ a ∈ upsertApproval apps pk approverId d notes, a.reservation = pk →
      a.approver = approverId ∧ a.decision = d ∧ a.notes = notes := by
  unfold upsertApproval
  split
  case isTrue hany =>
    intro a ha hres
    rcases List.mem_map.mp ha with ⟨b, hb, hfb⟩
    by_cases hbpk : b.reservation = pk
    · rw [if_pos hbpk] at hfb
      rw [← hfb]
      exact ⟨rfl, rfl, rfl⟩
    · rw [if_neg hbpk] at hfb
      rw [← hfb] at hres
      exact absurd hres hbpk
  case isFalse hany =>
    intro a ha hres
    rcases List.mem_append.mp ha with h | h
    · exfalso
      have : apps.any (fun a => a.reservation == pk) = true :=
        List.any_eq_true.mpr ⟨a, h, by simpa using hres⟩
      simp_all
    · have : a = ⟨pk, approverId, d, notes⟩ := by simpa using h
      rw [this]
      exact ⟨rfl, rfl, rfl⟩

/-- The upsert preserves the at-most-one-approval-per-reservation invariant. -/
theorem upsertApproval_atMostOne (apps : List Approval) (pk approverId : Nat)
    (d : Decision) (notes : String) (h1 : atMostOneApprovalPer apps) :
    atMostOneApprovalPer (upsertApproval apps pk approverId d notes) := by
  intro k
  unfold upsertApproval
  split
  case isTrue hany =>
    have hpres : ∀ a : Approval,
        ((fun a => if a.reservation = pk then
            { a with approver := approverId, decision := d, notes := notes }
          else a) a).reservation = a.reservation := by
      intro a
      by_cases hb : a.reservation = pk <;> simp [hb]
    rw [List.filter_map]
    rw [List.length_map]
    have : (Function.comp (fun a : Approval => a.reservation == k)
        (fun a => if a.reservation = pk then
            { a with approver := approverId, decision := d, notes := notes }
          else a)) = (fun a : Approval => a.reservation == k) := by
      funext a
      simp [Function.comp, hpres a]
    rw [this]
    exact h1 k
  case isFalse hany =>
    rw [List.filter_append]
    by_cases hk : k = pk
    · have hnil : apps.filter (fun a => a.reservation == k) = [] := by
        rw [List.filter_eq_nil_iff]
        intro a ha
        have hall : ∀ x ∈ apps, ¬ x.reservation = pk := by simpa using hany
        simpa [hk] using hall a ha
      rw [hnil, List.nil_append]
      simpa using List.length_filter_le (fun a => a.reservation == k)
        [(⟨pk, approverId, d, notes⟩ : Approval)]
    · simp only [List.length_append]
      have : ([(⟨pk, approverId, d, notes⟩ : Approval)].filter
          (fun a => a.reservation == k)).length = 0 := by
        simp [Ne.symm hk]
      have hk1 := h1 k
      omega

/-- Peeling one step off an arithmetic-progression `range` map. -/
theorem mapRangeShift (n a i : Nat) :
    (List.range (n + 1)).map (fun k => a + k * i)
      = a :: (List.range n).map (fun k => (a + i) + k * i) := by
  rw [List.range_succ_eq_map, List.map_cons, List.map_map]
  refine congrArg₂ List.cons (by show a + 0 * i = a; omega) ?_
  apply List.map_congr_left
  intro k _
  simp only [Function.comp, Nat.succ_mul]
  omega

/-- The slot loop produces exactly the arithmetic progression of step
`interval` from `cur` that stays `≤ endM`, whenever the fuel covers the
iteration count (any `fuel ≥ endM + 1 - cur` does, for `interval ≥ 1`). -/
theorem slotsLoop_eq_map (interval : Nat) (hi : 1 ≤ interval) :
    ∀ (fuel cur endM : Nat), endM + 1 - cur ≤ fuel →
      slotsLoop fuel cur endM interval =
        (List.range (if cur ≤ endM then (endM - cur) / interval + 1 else 0)).map
          (fun k => cur + k * interval) := by
  intro fuel
  induction fuel with
  | zero =>
    intro cur endM hf
    rw [if_neg (by omega)]
    simp [slotsLoop]
  | succ fuel ih =>
    intro cur endM hf
    by_cases hc : cur ≤ endM
    · rw [if_pos hc, slotsLoop, if_pos hc]
      rw [mapRangeShift]
      refine congrArg₂ List.cons rfl ?_
      rw [ih (cur + interval) endM (by omega)]
      suffices h : (if cur + interval ≤ endM then (endM - (cur + interval)) / interval + 1
          else 0) = (endM - cur) / interval by rw [h]
      by_cases hc2 : cur + interval ≤ endM
      · rw [if_pos hc2]
        have h1 : endM - (cur + interval) = (endM - cur) - interval := by omega
        rw [h1]
        exact (Nat.div_eq_sub_div (by omega) (by omega)).symm
      · rw [if_neg hc2, Nat.div_eq_of_lt (show endM - cur < interval by omega)]
    · rw [if_neg hc, slotsLoop, if_neg hc]
      simp

/-- Closed form of the minute-level slot grid. -/
theorem build_day_slots_min_eq (interval startM endM : Nat) (hi : 1 ≤ interval)
    (hse : startM ≤ endM) :
    build_day_slots_min interval startM endM
      = (List.range ((endM - startM) / interval + 1)).map (fun k => startM + k * interval) := by
  unfold build_day_slots_min
  rw [slotsLoop_eq_map interval hi (endM + 1 - startM) startM endM (le_refl _)]
  rw [if_pos hse]

/-!
Claim theorems.
-/

/-- C1: membership in `Reservation.overlaps` is exactly "same space, both
statuses in {PENDING, APPROVED}, `existing.start < candidate.end` and
`existing.end > candidate.start`, excluding the candidate's own pk"; hence
back-to-back reservations (one ending exactly when the other begins) never
conflict, and the creation-time conflict query of `ReservationForm.clean`
(excluding the edited pk) agrees with the model-level `overlaps` query. -/
theorem overlap_predicate_halfopen (self r : Reservation) (db : List Reservation) :
    (r ∈ self.overlaps db ↔
      r ∈ db ∧ r.pk ≠ self.pk ∧ r.space = self.space
        ∧ (r.status = Status.PEND ∨ r.status = Status.APPR)
        ∧ r.start < self.«end» ∧ r.«end» > self.start)
  ∧ (r.«end» = self.start → r ∉ self.overlaps db)
  ∧ (r.start = self.«end» → r ∉ self.overlaps db)
  ∧ formConflict db self.space self.start self.«end» (some self.pk)
      = !(self.overlaps db).isEmpty := by
  have hmem : ∀ x : Reservation, x ∈ self.overlaps db ↔
      x ∈ db ∧ x.pk ≠ self.pk ∧ x.space = self.space
        ∧ (x.status = Status.PEND ∨ x.status = Status.APPR)
        ∧ x.start < self.«end» ∧ x.«end» > self.start := by
    intro x
    simp [Reservation.overlaps, List.mem_filter]
  refine ⟨hmem r, ?_, ?_, ?_⟩
  · intro he hmem'
    rw [hmem r] at hmem'
    omega
  · intro he hmem'
    rw [hmem r] at hmem'
    omega
  · rw [Bool.eq_iff_iff]
    simp only [formConflict, Reservation.overlaps, Bool.not_eq_true',
      List.isEmpty_eq_false, Ne, List.filter_eq_nil_iff, List.mem_filter,
      decide_eq_true_eq, not_forall]
    constructor
    · rintro ⟨x, ⟨⟨hx, h1⟩, h2⟩⟩
      push_neg at h2 ⊢
      exact ⟨x, hx, by tauto⟩
    · rintro ⟨x, hx, h⟩
      push_neg at h ⊢
      refine ⟨x, ⟨⟨hx, by tauto⟩, by tauto⟩⟩

/-- C1 witness: a reservation ending exactly at the candidate's start is not
among the overlaps of the candidate in a concrete database. -/
theorem overlap_predicate_halfopen_witness :
    rBackToBack ∉ rPendW.overlaps [rBackToBack, rApprW] :=
  (overlap_predicate_halfopen rPendW rBackToBack [rBackToBack, rApprW]).2.1 rfl

/-- C2: approving a (pending) reservation found in the database is rejected
with no change at all to the database exactly when a conflicting APPROVED
reservation exists in the same space; when no APPROVED conflict exists the
approval succeeds and sets the reservation's status to APPROVED — other
PENDING reservations never block an approval. -/
theorem approve_blocked_only_by_approved_conflict
    (db : DB) (pk approverId : Nat) (r : Reservation) (notes : String)
    (hfind : db.reservations.find? (fun x => x.pk == pk) = some r)
    (_hpend : r.status = Status.PEND) :
    (hasApprovedConflict db.reservations r = true →
      approve_or_reject db pk approverId Decision.APPR notes = (db, false))
  ∧ (hasApprovedConflict db.reservations r = false →
      (approve_or_reject db pk approverId Decision.APPR notes).2 = true
      ∧ (∀ x ∈ (approve_or_reject db pk approverId Decision.APPR notes).1.reservations,
          x.pk = pk → x.status = Status.APPR)) := by
  constructor
  · intro hc
    simp [approve_or_reject, hfind, hc]
  · intro hc
    have hres : (approve_or_reject db pk approverId Decision.APPR notes).1.reservations
        = db.reservations.map (fun y =>
            if y.pk = pk then { y with status := Status.APPR } else y) := by
      simp [approve_or_reject, hfind, hc]
    refine ⟨by simp [approve_or_reject, hfind, hc], ?_⟩
    intro x hx hxpk
    rw [hres] at hx
    rcases List.mem_map.mp hx with ⟨y, hy, hfy⟩
    by_cases hyp : y.pk = pk
    · rw [if_pos hyp] at hfy
      rw [← hfy]
    · rw [if_neg hyp] at hfy
      rw [← hfy] at hxpk
      exact absurd hxpk hyp

/-- C2 witness: approving the pending reservation of `dbApprConflict` — which
overlaps an APPROVED reservation of the same space — leaves the database
unchanged and reports failure. -/
theorem approve_blocked_only_by_approved_conflict_witness :
    approve_or_reject dbApprConflict 1 9 Decision.APPR "" = (dbApprConflict, false) :=
  (approve_blocked_only_by_approved_conflict dbApprConflict 1 9 rPendW ""
    (by decide) (by decide)).1 (by decide)

/-- C3: `can_cancel` is false for REJECTED/CANCELED reservations and for
reservations whose start has passed; for APPROVED reservations it holds iff
the start is in the future by at least the cancellation window, and for
future PENDING reservations it always holds. -/
theorem can_cancel_spec (r : Reservation) (now : Int) (w : Nat) :
    ((r.status = Status.REJ ∨ r.status = Status.CANC) → r.can_cancel now w = false)
  ∧ (r.start ≤ now → r.can_cancel now w = false)
  ∧ (r.status = Status.APPR →
      (r.can_cancel now w = true ↔ now < r.start ∧ r.start - now ≥ (w : Int) * 3600))
  ∧ (r.status = Status.PEND → now < r.start → r.can_cancel now w = true) := by
  unfold Reservation.can_cancel
  refine ⟨fun h => by simp [h], ?_, ?_, ?_⟩
  · intro h
    by_cases hc : r.status = Status.REJ ∨ r.status = Status.CANC <;> simp [hc, h]
  · intro h
    simp only [h]
    by_cases h2 : r.start ≤ now
    · simp [h2]
    · simp [h2]
      omega
  · intro h hlt
    simp [h, show ¬ (r.start ≤ now) from by omega]

/-- C3 witness: with a 2-hour window, an APPROVED reservation starting in
1 hour cannot be canceled while the same reservation starting in 3 hours can. -/
theorem can_cancel_spec_witness :
    resApproved1h.can_cancel 0 2 = false ∧ resApproved3h.can_cancel 0 2 = true := by
  constructor
  · cases hb : resApproved1h.can_cancel 0 2
    · rfl
    · exfalso
      have hx := ((can_cancel_spec resApproved1h 0 2).2.2.1 rfl).mp hb
      revert hx
      decide
  · exact ((can_cancel_spec resApproved3h 0 2).2.2.1 rfl).mpr (by decide)

/-- C4: canceling an already-CANCELED reservation is a no-op: the model
method returns the reservation unchanged with no notifications, and the
cancel view leaves the whole database unchanged. -/
theorem cancel_canceled_idempotent (r : Reservation) (reason : String) (staff : List Nat)
    (h : r.status = Status.CANC) :
    r.cancel_by_user reason staff = (r, [])
  ∧ (∀ (db : DB) (now : Int) (w pk userId : Nat),
      db.reservations.find? (fun x => x.pk == pk && x.userId == userId) = some r →
      cancel_reservation db now w pk userId reason = (db, false)) := by
  constructor
  · simp [Reservation.cancel_by_user, h]
  · intro db now w pk userId hfind
    simp [cancel_reservation, hfind, Reservation.can_cancel, h]

/-- C4 witness: re-canceling a concrete CANCELED reservation changes nothing
and creates no notification. -/
theorem cancel_canceled_idempotent_witness :
    resCanceled.cancel_by_user "ya no" [7] = (resCanceled, []) :=
  (cancel_canceled_idempotent resCanceled "ya no" [7] rfl).1

/-- C5: rejecting with empty (stripped) notes fails validation and leaves the
database — approvals and reservation status included — unchanged; rejecting
with non-empty notes succeeds, records an Approval row for the reservation
with decision REJ, the approver and the notes, and sets the reservation's
status to REJECTED. -/
theorem reject_requires_nonempty_notes
    (db : DB) (pk approverId : Nat) (r : Reservation) (notes : String)
    (hfind : db.reservations.find? (fun x => x.pk == pk) = some r) :
    (pyStrip notes = "" →
      approve_or_reject db pk approverId Decision.REJ notes = (db, false))
  ∧ (pyStrip notes ≠ "" →
      (approve_or_reject db pk approverId Decision.REJ notes).2 = true
      ∧ (∃ a ∈ (approve_or_reject db pk approverId Decision.REJ notes).1.approvals,
          a.reservation = pk ∧ a.approver = approverId ∧ a.decision = Decision.REJ
            ∧ a.notes = pyStrip notes)
      ∧ (∀ x ∈ (approve_or_reject db pk approverId Decision.REJ notes).1.reservations,
          x.pk = pk → x.status = Status.REJ)) := by
  constructor
  · intro hn
    simp [approve_or_reject, hfind, hn]
  · intro hn
    have happr : (approve_or_reject db pk approverId Decision.REJ notes).1.approvals
        = upsertApproval db.approvals pk approverId Decision.REJ (pyStrip notes) := by
      simp [approve_or_reject, hfind, hn]
    have hres : (approve_or_reject db pk approverId Decision.REJ notes).1.reservations
        = db.reservations.map (fun y =>
            if y.pk = pk then { y with status := Status.REJ } else y) := by
      simp [approve_or_reject, hfind, hn]
    refine ⟨by simp [approve_or_reject, hfind, hn], ?_, ?_⟩
    · rw [happr]
      exact upsertApproval_mem_new db.approvals pk approverId Decision.REJ (pyStrip notes)
    · intro x hx hxpk
      rw [hres] at hx
      rcases List.mem_map.mp hx with ⟨y, hy, hfy⟩
      by_cases hyp : y.pk = pk
      · rw [if_pos hyp] at hfy
        rw [← hfy]
      · rw [if_neg hyp] at hfy
        rw [← hfy] at hxpk
        exact absurd hxpk hyp

/-- C5 witness: rejecting the pending reservation of `dbRejW` with
whitespace-only notes fails and leaves the database unchanged. -/
theorem reject_requires_nonempty_notes_witness :
    approve_or_reject dbRejW 1 9 Decision.REJ "   " = (dbRejW, false) :=
  (reject_requires_nonempty_notes dbRejW 1 9 rPendW "   " (by decide)).1 (by decide)

/-- C6 counterexample: with interval 30, `day_start = "08:00"` and
`day_end = "08:15"` (so `day_start <= day_end` as strings), the generated
grid is `["08:00"]` and `day_end` is NOT one of its labels, refuting the
claim that `day_end` is always a label of the sequence. -/
theorem build_day_slots_end_excluded :
    strLe "08:00" "08:15" = true
  ∧ build_day_slots 30 "08:00" "08:15" = ["08:00"]
  ∧ "08:15" ∉ build_day_slots 30 "08:00" "08:15" :=
  ⟨by decide, by decide, by decide⟩

/-- C6 (amended): the grid is the arithmetic progression
`day_start + k * interval` of all values `≤ day_end`: it starts at
`day_start`, increases strictly by `interval` at each step, and contains
`day_end` iff `interval` divides `day_end - day_start`; with the default
settings (30, "08:30", "22:00") the label grid runs from "08:30" to "22:00"
inclusive. -/
theorem build_day_slots_grid_spec (interval startM endM : Nat) (hi : 1 ≤ interval)
    (hse : startM ≤ endM) :
    (build_day_slots_min interval startM endM
       = (List.range ((endM - startM) / interval + 1)).map (fun k => startM + k * interval))
  ∧ ((build_day_slots_min interval startM endM).head? = some startM)
  ∧ (∀ m, m ∈ build_day_slots_min interval startM endM ↔
        ∃ k, m = startM + k * interval ∧ m ≤ endM)
  ∧ (endM ∈ build_day_slots_min interval startM endM ↔ interval ∣ (endM - startM))
  ∧ List.Chain' (fun a b => b = a + interval) (build_day_slots_min interval startM endM)
  ∧ build_day_slots 30 "08:30" "22:00" = (build_day_slots_min 30 510 1320).map fmtHHMM
  ∧ (build_day_slots 30 "08:30" "22:00").head? = some "08:30"
  ∧ (build_day_slots 30 "08:30" "22:00").getLast? = some "22:00" := by
  have heq := build_day_slots_min_eq interval startM endM hi hse
  have hchar : ∀ m, m ∈ build_day_slots_min interval startM endM ↔
      ∃ k, m = startM + k * interval ∧ m ≤ endM := by
    intro m
    rw [heq]
    simp only [List.mem_map, List.mem_range]
    constructor
    · rintro ⟨k, hk, rfl⟩
      have h2 : k * interval ≤ (endM - startM) / interval * interval :=
        Nat.mul_le_mul_right interval (by omega)
      have h3 : (endM - startM) / interval * interval ≤ endM - startM :=
        Nat.div_mul_le_self _ _
      exact ⟨k, rfl, by omega⟩
    · rintro ⟨k, rfl, hle⟩
      have h2 : k * interval ≤ endM - startM := by omega
      have h3 : k ≤ (endM - startM) / interval := (Nat.le_div_iff_mul_le (by omega)).mpr h2
      exact ⟨k, by omega, rfl⟩
  refine ⟨heq, ?_, hchar, ?_, ?_, by decide, by decide, by decide⟩
  · rw [heq, List.range_succ_eq_map, List.map_cons]
    simp
  · rw [hchar endM]
    constructor
    · rintro ⟨k, hk, -⟩
      refine ⟨k, ?_⟩
      rw [Nat.mul_comm]
      omega
    · rintro ⟨c, hc⟩
      refine ⟨c, ?_, le_refl endM⟩
      rw [Nat.mul_comm]
      omega
  · rw [heq, List.chain'_map]
    apply (List.chain'_range_succ _ _).mpr
    intro m hm
    rw [Nat.succ_mul]
    omega

/-- C6 witness: with the default settings (minute level: interval 30, start
510 = 08:30, end 1320 = 22:00) the grid starts at 08:30 and does contain
22:00. -/
theorem build_day_slots_grid_spec_witness :
    1320 ∈ build_day_slots_min 30 510 1320
      ∧ (build_day_slots_min 30 510 1320).head? = some 510 := by
  have h := build_day_slots_grid_spec 30 510 1320 (by decide) (by decide)
  exact ⟨(h.2.2.2.1).mpr (by decide), h.2.1⟩

/-- C7: a reservation is persisted (as PENDING, with start/end taken from
the chosen slots) iff both slot labels are in the grid, the end label is
strictly after the start label, the end instant is after the start instant,
the start has not passed, and no active conflict exists; in particular a
past start — though recorded as a field-level error — always blocks the
save. -/
theorem creation_requires_valid_slots_future_noconflict
    (grid : List String) (db : List Reservation) (space : Nat) (dateBase : Int)
    (startSlot endSlot : String) (now : Int) (pk userId : Nat)
    (purpose : String) (att : Nat) :
    ((reservationCreate grid db space dateBase startSlot endSlot now pk userId purpose
        att).isSome ↔
      (startSlot ∈ grid ∧ endSlot ∈ grid
        ∧ strLe endSlot startSlot = false
        ∧ dateBase + (slotMinutes startSlot : Int) * 60
            < dateBase + (slotMinutes endSlot : Int) * 60
        ∧ ¬ (dateBase + (slotMinutes startSlot : Int) * 60 < now)
        ∧ formConflict db space (dateBase + (slotMinutes startSlot : Int) * 60)
            (dateBase + (slotMinutes endSlot : Int) * 60) none = false))
  ∧ (dateBase + (slotMinutes startSlot : Int) * 60 < now →
      reservationCreate grid db space dateBase startSlot endSlot now pk userId purpose att
        = none)
  ∧ (∀ r, reservationCreate grid db space dateBase startSlot endSlot now pk userId purpose
        att = some r →
      r.status = Status.PEND
        ∧ r.start = dateBase + (slotMinutes startSlot : Int) * 60
        ∧ r.«end» = dateBase + (slotMinutes endSlot : Int) * 60
        ∧ r.space = space ∧ r.userId = userId) := by
  have hclean : reservationFormClean grid db space dateBase startSlot endSlot now none = []
      ↔ (startSlot ∈ grid ∧ endSlot ∈ grid
        ∧ strLe endSlot startSlot = false
        ∧ dateBase + (slotMinutes startSlot : Int) * 60
            < dateBase + (slotMinutes endSlot : Int) * 60
        ∧ ¬ (dateBase + (slotMinutes startSlot : Int) * 60 < now)
        ∧ formConflict db space (dateBase + (slotMinutes startSlot : Int) * 60)
            (dateBase + (slotMinutes endSlot : Int) * 60) none = false) := by
    unfold reservationFormClean
    dsimp only
    split_ifs with h1 h2 h3 h4 h5 <;> simp_all
  have hckey : (reservationCreate grid db space dateBase startSlot endSlot now pk userId
      purpose att).isSome
      ↔ reservationFormClean grid db space dateBase startSlot endSlot now none = [] := by
    unfold reservationCreate
    split_ifs with h
    · simp [h]
    · simp [h]
  refine ⟨hckey.trans hclean, ?_, ?_⟩
  · intro hpast
    unfold reservationCreate
    rw [if_neg]
    intro he
    rw [hclean] at he
    exact absurd hpast he.2.2.2.2.1
  · intro r hr
    unfold reservationCreate at hr
    split_ifs at hr with h
    · cases hr
      exact ⟨rfl, rfl, rfl, rfl, rfl⟩

/-- C7 witness: a well-formed future reservation request on an empty database
passes validation and is persisted. -/
theorem creation_requires_valid_slots_future_noconflict_witness :
    (reservationCreate ["08:00", "08:30"] [] 1 0 "08:00" "08:30" 0 1 2 "x" 3).isSome :=
  (creation_requires_valid_slots_future_noconflict
    ["08:00", "08:30"] [] 1 0 "08:00" "08:30" 0 1 2 "x" 3).1.mpr (by decide)

/-- C8: `update_or_create` keyed by the reservation keeps at most one Approval
row per reservation: it preserves the invariant, leaves every row keyed by the
reservation carrying the latest approver/decision/notes, and always leaves
such a row; a re-decision on a non-PENDING reservation is not blocked by any
state-machine guard (a REJ decision with notes succeeds for any reservation
found, whatever its status), and the whole decision view preserves the
invariant. -/
theorem approval_record_unique_upsert (apps : List Approval) (pk approverId : Nat)
    (d : Decision) (notes : String) :
    (atMostOneApprovalPer apps →
      atMostOneApprovalPer (upsertApproval apps pk approverId d notes))
  ∧ (∀ a ∈ upsertApproval apps pk approverId d notes, a.reservation = pk →
      a.approver = approverId ∧ a.decision = d ∧ a.notes = notes)
  ∧ (∃ a ∈ upsertApproval apps pk approverId d notes, a.reservation = pk)
  ∧ (∀ (db : DB) (r : Reservation),
      db.reservations.find? (fun x => x.pk == pk) = some r →
      pyStrip notes ≠ "" →
      (approve_or_reject db pk approverId Decision.REJ notes).2 = true)
  ∧ (∀ db : DB, atMostOneApprovalPer db.approvals →
      atMostOneApprovalPer (approve_or_reject db pk approverId d notes).1.approvals) := by
  refine ⟨upsertApproval_atMostOne apps pk approverId d notes,
    upsertApproval_latest apps pk approverId d notes,
    ?_, ?_, ?_⟩
  · rcases upsertApproval_mem_new apps pk approverId d notes with ⟨a, ha, h1, -⟩
    exact ⟨a, ha, h1⟩
  · intro db r hfind hn
    simp [approve_or_reject, hfind, hn]
  · intro db hmo
    unfold approve_or_reject
    cases hfind : db.reservations.find? (fun x => x.pk == pk) with
    | none => exact hmo
    | some r =>
      dsimp only
      split_ifs <;>
        first
          | exact hmo
          | exact upsertApproval_atMostOne db.approvals pk approverId d (pyStrip notes) hmo

/-- C8 witness: re-deciding reservation 1, which already has an approval row,
still leaves at most one approval row per reservation. -/
theorem approval_record_unique_upsert_witness :
    atMostOneApprovalPer (upsertApproval [⟨1, 4, Decision.APPR, "ok"⟩] 1 9 Decision.REJ "no")
    := by
  apply (approval_record_unique_upsert [⟨1, 4, Decision.APPR, "ok"⟩] 1 9 Decision.REJ "no").1
  intro k
  cases hb : (((⟨1, 4, Decision.APPR, "ok"⟩ : Approval)).reservation == k) <;>
    simp [List.filter_cons, hb]

/-- C9: the CSV export splits the purpose on "|", routes the parts prefixed
with "Recursos solicitados:" / "Detalle recursos:" into the two resource
columns and joins the rest as the base purpose; for the purpose
"Recursos solicitados: Proyector | Detalle recursos: HDMI" the exported
columns are "", "Proyector", "HDMI". -/
theorem csv_resource_columns_roundtrip :
    split_purpose "Recursos solicitados: Proyector | Detalle recursos: HDMI"
      = ("", "Proyector", "HDMI")
  ∧ csvPurposeColumns "Recursos solicitados: Proyector | Detalle recursos: HDMI"
      = ("", "Proyector", "HDMI")
  ∧ split_purpose "Clase de redes | Recursos solicitados: Proyector"
      = ("Clase de redes", "Proyector", "") :=
  ⟨by decide, by decide, by decide⟩

/-- C10: a successful user cancellation only touches status (to CANCELED),
cancel_reason (to the stripped reason) and — when the stripped reason is
non-empty — the purpose, which gets " [Cancelada por usuario]" appended;
space, start, end, user, attendee count and creation timestamp are kept. -/
theorem cancel_frame_effects (r : Reservation) (reason : String) (staff : List Nat)
    (h : r.status ≠ Status.CANC) :
    ((r.cancel_by_user reason staff).1.status = Status.CANC)
  ∧ ((r.cancel_by_user reason staff).1.cancel_reason = pyStrip reason)
  ∧ (pyStrip reason ≠ "" →
      (r.cancel_by_user reason staff).1.purpose = r.purpose ++ " [Cancelada por usuario]")
  ∧ (pyStrip reason = "" → (r.cancel_by_user reason staff).1.purpose = r.purpose)
  ∧ ((r.cancel_by_user reason staff).1.space = r.space)
  ∧ ((r.cancel_by_user reason staff).1.start = r.start)
  ∧ ((r.cancel_by_user reason staff).1.«end» = r.«end»)
  ∧ ((r.cancel_by_user reason staff).1.userId = r.userId)
  ∧ ((r.cancel_by_user reason staff).1.attendees_count = r.attendees_count)
  ∧ ((r.cancel_by_user reason staff).1.created_at = r.created_at) := by
  unfold Reservation.cancel_by_user
  simp only [if_neg h]
  refine ⟨trivial, trivial, ?_, ?_, trivial, trivial, trivial, trivial, trivial, trivial⟩
  · intro hne
    by_cases hp : r.purpose = ""
    · simp [hne, hp]
    · simp [hne, hp]
  · intro he
    simp [he]

/-- C10 witness: canceling a concrete pending reservation with reason
"  motivo  " sets status CANCELED, records the stripped reason and appends
the purpose marker. -/
theorem cancel_frame_effects_witness :
    (resPending.cancel_by_user "  motivo  " [5]).1.status = Status.CANC ∧
    (resPending.cancel_by_user "  motivo  " [5]).1.cancel_reason = "motivo" ∧
    (resPending.cancel_by_user "  motivo  " [5]).1.purpose
      = "Clase [Cancelada por usuario]" := by
  refine ⟨(cancel_frame_effects resPending "  motivo  " [5] (by decide)).1, ?_, ?_⟩
  · rw [(cancel_frame_effects resPending "  motivo  " [5] (by decide)).2.1]
    decide
  · rw [(cancel_frame_effects resPending "  motivo  " [5] (by decide)).2.2.1 (by decide)]
    decide

end Reservas
